import Mathlib

/-!
Verification development for the TodoApp repository (src/todoapp.py).

The program is a single-file interactive to-do list: a `TodoList` class
holding `self.tasks` (a Python list of dicts), JSON persistence
(`load_tasks`/`save_tasks`), CRUD operations (`add_task`, `complete_task`,
`edit_task`, `delete_task`), a display routine with overdue detection
(`display_tasks`), an input helper (`get_user_input`) and a menu loop
(`main`).

Shallow embedding conventions:
* a Python task dict becomes the `Task` structure below (Python `None` in
  the `due_date` slot is `Option.none`; a Python string `s`, including the
  empty string, is `some s`);
* the ambient clock (`datetime.now()`) is passed as an explicit argument
  (`created_at` strings at creation, a `PyDateTime` at render time);
* printing is dropped, except where a claim is about a signal: the `R`
  variants of `complete_task`/`edit_task` also return a Bool that is
  `false` exactly when the code prints "Task not found!";
* the filesystem is a function from filename to `FileContent`; valid JSON
  text is identified with the `Json` value it denotes (the textual
  encode/decode performed by Python's `json` module is outside this
  program);
* an unhandled Python exception is modelled by an explicit `crashed`
  outcome (interaction flows) or an `Option.none` result (date parsing at
  render time).
-/

namespace TodoApp

/-- One task record, mirroring the dict built in `TodoList.add_task`
(src/todoapp.py lines 30-37). -/
structure Task where
  id : Int
  description : String
  priority : String
  due_date : Option String
  completed : Bool
  created_at : String
deriving DecidableEq, Repr

/-- Python `str.lower` restricted to the ASCII strings this program uses. -/
def lowerStr (s : String) : String :=
  String.mk (s.data.map Char.toLower)

/-- `TodoList.add_task(description, priority, due_date)` (lines 28-38): builds
the task dict with `id = len(self.tasks) + 1`, lowercased priority,
`completed = False`, and the current timestamp (here the explicit
`createdAt` argument), and appends it. -/
def addTask (ts : List Task) (description priority : String)
    (due_date : Option String) (createdAt : String) : List Task :=
  ts ++ [{ id := (ts.length : Int) + 1
           description := description
           priority := lowerStr priority
           due_date := due_date
           completed := false
           created_at := createdAt }]

/-- `TodoList.complete_task(task_id)` (lines 77-84): scans `self.tasks` in
order, sets `completed = True` on the first task whose `id` matches and
returns; the Bool is `true` when a match was found and `false` when the
loop falls through to printing "Task not found!". -/
def completeTaskR : List Task → Int → List Task × Bool
  | [], _ => ([], false)
  | t :: ts, task_id =>
    if t.id = task_id then ({ t with completed := true } :: ts, true)
    else (t :: (completeTaskR ts task_id).1, (completeTaskR ts task_id).2)

/-- The task list after `complete_task`, dropping the found/not-found signal. -/
def completeTask (ts : List Task) (task_id : Int) : List Task :=
  (completeTaskR ts task_id).1

/-- `TodoList.edit_task(task_id, new_description)` (lines 91-99): scans in
order, replaces the description of the first task whose `id` matches and
returns; the Bool is `false` exactly when "Task not found!" is printed. -/
def editTaskR : List Task → Int → String → List Task × Bool
  | [], _, _ => ([], false)
  | t :: ts, task_id, new_description =>
    if t.id = task_id then ({ t with description := new_description } :: ts, true)
    else (t :: (editTaskR ts task_id new_description).1, (editTaskR ts task_id new_description).2)

/-- The task list after `edit_task`, dropping the found/not-found signal. -/
def editTask (ts : List Task) (task_id : Int) (new_description : String) : List Task :=
  (editTaskR ts task_id new_description).1

/-- `TodoList.delete_task(task_id)` (lines 86-89): rebuilds the list keeping
every task whose `id` differs from `task_id` (a list comprehension, so every
match is dropped); it always prints a success message and never signals
not-found. -/
def deleteTask (ts : List Task) (task_id : Int) : List Task :=
  ts.filter (fun t => t.id != task_id)

/-- The sequence of tasks whose rows `TodoList.display_tasks(show_completed)`
prints (lines 53-55): the loop skips a task exactly when
`task["completed"] and not show_completed`. -/
def displayedTasks (ts : List Task) (show_completed : Bool) : List Task :=
  ts.filter (fun t => !(t.completed && !show_completed))

/-- Arguments of one `add_task` call (the `created_at` slot stands for the
value `datetime.now()` had during that call). -/
structure AddArg where
  description : String
  priority : String
  due_date : Option String
  created_at : String
deriving DecidableEq, Repr

/-- A store built from the empty list by a sequence of `add_task` calls. -/
def buildStore (adds : List AddArg) : List Task :=
  adds.foldl (fun ts a => addTask ts a.description a.priority a.due_date a.created_at) []

/-- One mutating store operation of the menu loop. -/
inductive Op where
  | add (a : AddArg)
  | complete (task_id : Int)
  | edit (task_id : Int) (new_description : String)
  | delete (task_id : Int)
deriving DecidableEq, Repr

/-- Whether an operation is a `delete`. -/
def Op.isDelete : Op → Bool
  | .delete _ => true
  | _ => false

/-- Applying one operation to the in-memory task list. -/
def applyOp (ts : List Task) : Op → List Task
  | .add a => addTask ts a.description a.priority a.due_date a.created_at
  | .complete task_id => completeTask ts task_id
  | .edit task_id d => editTask ts task_id d
  | .delete task_id => deleteTask ts task_id

/-- The store reached from the empty list by a sequence of operations. -/
def runOps (ops : List Op) : List Task :=
  ops.foldl applyOp []

/-- The ids a freshly built store is supposed to carry: `1, 2, ..., n`. -/
def idsSeq (n : Nat) : List Int :=
  (List.range n).map (fun k : Nat => (k : Int) + 1)

/-- Decimal value of a digit string. -/
def digitsToNat (cs : List Char) : Nat :=
  cs.foldl (fun n c => n * 10 + (c.toNat - 48)) 0

/-- Splits a character list at every dash, keeping empty groups. -/
def splitOnDash : List Char → List (List Char)
  | [] => [[]]
  | c :: cs =>
    let r := splitOnDash cs
    if c = '-' then [] :: r
    else
      match r with
      | g :: gs => (c :: g) :: gs
      | [] => [[c]]

/-- Gregorian leap-year rule, as used by Python's `datetime`. -/
def isLeapYear (y : Nat) : Bool :=
  y % 4 = 0 && (y % 100 ≠ 0 || y % 400 = 0)

/-- Number of days in a month, as validated by Python's `datetime`. -/
def daysInMonth (y m : Nat) : Nat :=
  if m = 2 then (if isLeapYear y then 29 else 28)
  else if m = 4 ∨ m = 6 ∨ m = 9 ∨ m = 11 then 30
  else 31

/-- `datetime.strptime(s, "%Y-%m-%d")` as a total function: `some (y, m, d)`
on success, `none` when Python would raise `ValueError`. CPython matches
`%Y` against exactly four digits and `%m`/`%d` against one or two digits,
requires the whole string to be consumed, and then validates the field
ranges (month 1-12, day 1-days-in-month) when building the `datetime`. -/
def parseDueDate (s : String) : Option (Nat × Nat × Nat) :=
  match splitOnDash s.data with
  | [ys, ms, ds] =>
    if ys.length = 4 ∧ 1 ≤ ms.length ∧ ms.length ≤ 2 ∧ 1 ≤ ds.length ∧ ds.length ≤ 2
        ∧ ys.all Char.isDigit ∧ ms.all Char.isDigit ∧ ds.all Char.isDigit then
      let y := digitsToNat ys
      let m := digitsToNat ms
      let d := digitsToNat ds
      if 1 ≤ m ∧ m ≤ 12 ∧ 1 ≤ d ∧ d ≤ daysInMonth y m then some (y, m, d) else none
    else none
  | _ => none

/-- A Python `datetime` for the purposes of this program: a calendar date
plus the time elapsed since midnight (Python's hour/minute/second/microsecond
collapsed into one number, which preserves the lexicographic comparison
order `datetime` uses). `datetime.strptime(s, "%Y-%m-%d")` yields `sec = 0`. -/
structure PyDateTime where
  year : Nat
  month : Nat
  day : Nat
  sec : Nat
deriving DecidableEq, Repr

/-- Python's `<` on `datetime` values: lexicographic on
(year, month, day, time-of-day). -/
def pyDateTimeLtB (a b : PyDateTime) : Bool :=
  if a.year ≠ b.year then a.year < b.year
  else if a.month ≠ b.month then a.month < b.month
  else if a.day ≠ b.day then a.day < b.day
  else a.sec < b.sec

/-- Strict order on calendar dates (year, month, day), used to state the
spec's "strictly before the current date". -/
def dateLtB (a b : Nat × Nat × Nat) : Bool :=
  if a.1 ≠ b.1 then a.1 < b.1
  else if a.2.1 ≠ b.2.1 then a.2.1 < b.2.1
  else a.2.2 < b.2.2

/-- Python truthiness of the `due_date` slot: `None` and the empty string
are falsy, every other string is truthy. -/
def truthy : Option String → Bool
  | none => false
  | some s => s ≠ ""

/-- The overdue decision `TodoList.display_tasks` makes for one task
(src/todoapp.py lines 69-73): when the task has a truthy `due_date` and is
not completed, it parses the due date (midnight of that day) and compares it
with `datetime.now()`; `some true` means the row is printed with the red
"OVERDUE:" marker, `some false` means it is not, and `none` models the
`ValueError` Python would raise on an unparsable stored due date. -/
def overdueFlag (t : Task) (now : PyDateTime) : Option Bool :=
  if truthy t.due_date && !t.completed then
    match parseDueDate (t.due_date.getD "") with
    | some (y, m, d) => some (pyDateTimeLtB ⟨y, m, d, 0⟩ now)
    | none => none
  else some false

/-- The JSON values Python's `json` module exchanges with `todo.json`
(floats do not occur in this program's data, so numbers are integers). -/
inductive Json where
  | null
  | bool (b : Bool)
  | num (n : Int)
  | str (s : String)
  | arr (elems : List Json)
  | obj (fields : List (String × Json))

/-- The `due_date` slot as serialized by `json.dump`: `None` becomes JSON
null, a string stays a string. -/
def dueToJson : Option String → Json
  | none => .null
  | some s => .str s

/-- The JSON object `json.dump` writes for one task dict, keys in the order
`add_task` builds them. -/
def taskToJson (t : Task) : Json :=
  .obj [("id", .num t.id), ("description", .str t.description),
        ("priority", .str t.priority), ("due_date", dueToJson t.due_date),
        ("completed", .bool t.completed), ("created_at", .str t.created_at)]

/-- Recognizes a JSON value as one task record (the typed boundary of the
embedding: `json.load` itself returns the decoded value unchecked, and the
rest of the program accesses it as a dict with exactly these keys). -/
def taskFromJson : Json → Option Task
  | .obj [("id", .num n), ("description", .str d), ("priority", .str p),
          ("due_date", dd), ("completed", .bool c), ("created_at", .str ca)] =>
    match dd with
    | .null => some ⟨n, d, p, none, c, ca⟩
    | .str s => some ⟨n, d, p, some s, c, ca⟩
    | _ => none
  | _ => none

/-- The JSON document `save_tasks` writes: the array of task objects. -/
def tasksToJson (ts : List Task) : Json :=
  .arr (ts.map taskToJson)

/-- Recognizes a list of JSON values as a list of task records. -/
def tasksFromJsonList : List Json → Option (List Task)
  | [] => some []
  | j :: js =>
    match taskFromJson j, tasksFromJsonList js with
    | some t, some ts => some (t :: ts)
    | _, _ => none

/-- Recognizes a JSON document as a persisted task list. -/
def tasksFromJson : Json → Option (List Task)
  | .arr js => tasksFromJsonList js
  | _ => none

/-- Contents of one file as seen by `load_tasks`: absent
(`FileNotFoundError`), present but not valid JSON text
(`json.JSONDecodeError`), or valid JSON text denoting the value `j`. -/
inductive FileContent where
  | missing
  | malformed
  | content (j : Json)

/-- `TodoList.save_tasks(filename)` (lines 22-26): serializes the whole
task list to the file, overwriting it; every other file is untouched. -/
def saveTasks (fs : String → FileContent) (filename : String)
    (ts : List Task) : String → FileContent :=
  fun n => if n = filename then .content (tasksToJson ts) else fs n

/-- `TodoList.load_tasks(filename)` (lines 13-20): on `FileNotFoundError`
or `json.JSONDecodeError` the task list is reset to `[]`; otherwise
`self.tasks` becomes the decoded JSON value. The decoded value of any file
this program wrote is a list of task records; JSON content of any other
shape would be bound raw by Python (a state outside this typed model, and
outside every claim), here collapsed to `[]` by `getD`. -/
def loadTasks (fs : String → FileContent) (filename : String) : List Task :=
  match fs filename with
  | .missing => []
  | .malformed => []
  | .content j => (tasksFromJson j).getD []

/-- Whitespace as stripped by Python's `str.strip`. -/
def isPyWS (c : Char) : Bool :=
  c = ' ' || c = '\t' || c = '\n' || c = '\r' || c = '\x0b' || c = '\x0c'

/-- Python `str.strip()` on a character list. -/
def stripChars (cs : List Char) : List Char :=
  ((cs.dropWhile isPyWS).reverse.dropWhile isPyWS).reverse

/-- Python `s.strip()`. -/
def pyStrip (s : String) : String :=
  String.mk (stripChars s.data)

/-- `get_user_input(prompt, options)` (lines 101-111) run against a queue of
pending user inputs: it strips each input, re-prompts (consumes the input
and loops) on an empty result or, when `options` is given, on a stripped
input whose lowercase form is not among the options, and otherwise returns
the stripped input together with the inputs not yet consumed. `(none, [])`
means the queue ran out while the loop was still re-prompting. -/
def getUserInputR (options : Option (List String)) : List String → Option String × List String
  | [] => (none, [])
  | i :: is =>
    let v := pyStrip i
    if v = "" then getUserInputR options is
    else
      match options with
      | some opts => if opts.contains (lowerStr v) then (some v, is) else getUserInputR options is
      | none => (some v, is)

/-- Tail of a decimal literal: digits with single underscores allowed
between digits (Python's grouping rule). -/
def digitRun : List Char → Bool
  | [] => true
  | '_' :: c :: cs => c.isDigit && digitRun cs
  | c :: cs => c.isDigit && digitRun cs

/-- A nonempty decimal literal for Python's `int`. -/
def validDigits : List Char → Bool
  | [] => false
  | c :: cs => c.isDigit && digitRun cs

/-- Value of a decimal literal, ignoring grouping underscores. -/
def digitsVal (cs : List Char) : Nat :=
  digitsToNat (cs.filter (fun c => c != '_'))

/-- Python's `int(s)` on a decimal string as a total function: strips
whitespace, accepts an optional sign followed by digits (with Python's
underscore grouping), and returns `none` where Python raises `ValueError`. -/
def pyInt (s : String) : Option Int :=
  match stripChars s.data with
  | [] => none
  | '+' :: cs => if validDigits cs then some ((digitsVal cs : Nat) : Int) else none
  | '-' :: cs => if validDigits cs then some (-((digitsVal cs : Nat) : Int)) else none
  | cs => if validDigits cs then some ((digitsVal cs : Nat) : Int) else none

/-- Outcome of running one menu sub-flow against a queue of pending inputs:
it finished and left the store in state `ts`, it is still blocked waiting
for more input, or it raised an unhandled exception. -/
inductive FlowOutcome where
  | ok (ts : List Task)
  | awaitingInput
  | crashed
deriving DecidableEq, Repr

/-- Menu choice 3 (lines 155-158): `int(get_user_input("Enter task ID to complete: "))`
followed by `complete_task`. The `int` call is outside any try/except, so a
validated (non-empty) input that is not a decimal literal raises an
unhandled `ValueError`. -/
def completeFlow (ts : List Task) (inputs : List String) : FlowOutcome :=
  match getUserInputR none inputs with
  | (none, _) => .awaitingInput
  | (some s, _) =>
    match pyInt s with
    | some n => .ok (completeTask ts n)
    | none => .crashed

/-- Menu choice 5 (lines 166-169): same shape as the Complete sub-flow,
dispatching to `delete_task`. -/
def deleteFlow (ts : List Task) (inputs : List String) : FlowOutcome :=
  match getUserInputR none inputs with
  | (none, _) => .awaitingInput
  | (some s, _) =>
    match pyInt s with
    | some n => .ok (deleteTask ts n)
    | none => .crashed

/-- Menu choice 4 (lines 160-164): numeric id, then the new description,
then `edit_task`; the unprotected `int` call sits between the two prompts. -/
def editFlow (ts : List Task) (inputs : List String) : FlowOutcome :=
  match getUserInputR none inputs with
  | (none, _) => .awaitingInput
  | (some s, rest) =>
    match pyInt s with
    | none => .crashed
    | some n =>
      match getUserInputR none rest with
      | (none, _) => .awaitingInput
      | (some d, _) => .ok (editTask ts n d)

/-- The enumerated priority options of the Add sub-flow. -/
def priorityOptions : List String := ["high", "medium", "low"]

/-- Menu choice 1 (lines 132-149): description (re-prompting helper, no
options), priority (re-prompting helper with options), then one raw
`input()` for the due date; a nonempty due date that fails
`datetime.strptime(due_date, "%Y-%m-%d")` is caught and degraded to `None`
(never an unhandled exception), an empty one is kept as the empty string. -/
def addFlow (ts : List Task) (inputs : List String) (createdAt : String) : FlowOutcome :=
  match getUserInputR none inputs with
  | (none, _) => .awaitingInput
  | (some desc, r1) =>
    match getUserInputR (some priorityOptions) r1 with
    | (none, _) => .awaitingInput
    | (some prio, r2) =>
      match r2 with
      | [] => .awaitingInput
      | dIn :: _ =>
        let due : Option String :=
          if dIn = "" then some dIn
          else
            match parseDueDate dIn with
            | some _ => some dIn
            | none => none
        .ok (addTask ts desc prio due createdAt)

/-- A plain sample task used to instantiate theorems at concrete inputs. -/
def sampleTask (i : Int) : Task :=
  { id := i, description := "task", priority := "medium", due_date := none,
    completed := false, created_at := "2026-10-12 00:00:00" }

/-- A completed sample task. -/
def sampleDone (i : Int) : Task :=
  { sampleTask i with completed := true }

/-- A not-completed task due on 2020-01-05, for the overdue analysis. -/
def dueTask : Task :=
  { id := 1, description := "x", priority := "medium",
    due_date := some "2020-01-05", completed := false,
    created_at := "2020-01-01 00:00:00" }

/-- A not-completed task due on 2000-01-01, the spec's own example. -/
def oldDueTask : Task :=
  { id := 1, description := "x", priority := "medium",
    due_date := some "2000-01-01", completed := false,
    created_at := "2000-01-01 00:00:00" }

/-! ### Basic lemmas about the store operations -/

theorem mkCompleted_eq_self {t : Task} (h : t.completed = true) :
    { t with completed := true } = t := by
  cases t
  subst h
  rfl

theorem completeTaskR_of_not_found (ts : List Task) (task_id : Int)
    (h : ∀ t ∈ ts, t.id ≠ task_id) : completeTaskR ts task_id = (ts, false) := by
  induction ts with
  | nil => rfl
  | cons t ts ih =>
    simp only [completeTaskR]
    rw [if_neg (h t (by simp))]
    rw [ih (fun u hu => h u (by simp [hu]))]

theorem completeTaskR_of_found (l₁ : List Task) (t : Task) (l₂ : List Task) (task_id : Int)
    (h₁ : ∀ u ∈ l₁, u.id ≠ task_id) (ht : t.id = task_id) :
    completeTaskR (l₁ ++ t :: l₂) task_id = (l₁ ++ { t with completed := true } :: l₂, true) := by
  induction l₁ with
  | nil => simp [completeTaskR, ht]
  | cons u l₁ ih =>
    simp only [List.cons_append, completeTaskR, List.append_eq]
    rw [if_neg (h₁ u (by simp))]
    rw [ih (fun v hv => h₁ v (by simp [hv]))]

theorem completeTask_twice (ts : List Task) (task_id : Int) :
    completeTask (completeTask ts task_id) task_id = completeTask ts task_id := by
  induction ts with
  | nil => rfl
  | cons t ts ih =>
    by_cases h : t.id = task_id
    · simp [completeTask, completeTaskR, h]
    · simp only [completeTask, completeTaskR, if_neg h] at ih ⊢
      rw [ih]

theorem completeTask_map_id (ts : List Task) (task_id : Int) :
    (completeTask ts task_id).map Task.id = ts.map Task.id := by
  induction ts with
  | nil => rfl
  | cons t ts ih =>
    by_cases h : t.id = task_id
    · simp [completeTask, completeTaskR, h]
    · simp only [completeTask, completeTaskR, if_neg h, List.map_cons] at ih ⊢
      rw [ih]

theorem completeTask_length (ts : List Task) (task_id : Int) :
    (completeTask ts task_id).length = ts.length := by
  have h := congrArg List.length (completeTask_map_id ts task_id)
  simpa using h

theorem editTaskR_of_not_found (ts : List Task) (task_id : Int) (d : String)
    (h : ∀ t ∈ ts, t.id ≠ task_id) : editTaskR ts task_id d = (ts, false) := by
  induction ts with
  | nil => rfl
  | cons t ts ih =>
    simp only [editTaskR]
    rw [if_neg (h t (by simp))]
    rw [ih (fun u hu => h u (by simp [hu]))]

theorem editTaskR_of_found (l₁ : List Task) (t : Task) (l₂ : List Task) (task_id : Int) (d : String)
    (h₁ : ∀ u ∈ l₁, u.id ≠ task_id) (ht : t.id = task_id) :
    editTaskR (l₁ ++ t :: l₂) task_id d = (l₁ ++ { t with description := d } :: l₂, true) := by
  induction l₁ with
  | nil => simp [editTaskR, ht]
  | cons u l₁ ih =>
    simp only [List.cons_append, editTaskR, List.append_eq]
    rw [if_neg (h₁ u (by simp))]
    rw [ih (fun v hv => h₁ v (by simp [hv]))]

theorem editTask_map_id (ts : List Task) (task_id : Int) (d : String) :
    (editTask ts task_id d).map Task.id = ts.map Task.id := by
  induction ts with
  | nil => rfl
  | cons t ts ih =>
    by_cases h : t.id = task_id
    · simp [editTask, editTaskR, h]
    · simp only [editTask, editTaskR, if_neg h, List.map_cons] at ih ⊢
      rw [ih]

theorem editTask_length (ts : List Task) (task_id : Int) (d : String) :
    (editTask ts task_id d).length = ts.length := by
  have h := congrArg List.length (editTask_map_id ts task_id d)
  simpa using h

theorem mem_deleteTask {u : Task} {ts : List Task} {task_id : Int} :
    u ∈ deleteTask ts task_id ↔ u ∈ ts ∧ u.id ≠ task_id := by
  simp [deleteTask, List.mem_filter]

theorem deleteTask_of_not_found (ts : List Task) (task_id : Int)
    (h : ∀ t ∈ ts, t.id ≠ task_id) : deleteTask ts task_id = ts := by
  rw [deleteTask, List.filter_eq_self]
  intro u hu
  simpa using h u hu

theorem deleteTask_length_of_nodup (ts : List Task) (task_id : Int)
    (h : (ts.map Task.id).Nodup) : ts.length ≤ (deleteTask ts task_id).length + 1 := by
  induction ts with
  | nil => simp [deleteTask]
  | cons t ts ih =>
    rw [List.map_cons, List.nodup_cons] at h
    by_cases ht : t.id = task_id
    · have hall : deleteTask ts task_id = ts := by
        apply deleteTask_of_not_found
        intro u hu he
        exact h.1 (by rw [ht, ← he]; exact List.mem_map_of_mem Task.id hu)
      have hstep : deleteTask (t :: ts) task_id = deleteTask ts task_id := by
        simp [deleteTask, List.filter_cons, ht]
      rw [hstep, hall]
      simp
    · have hstep : deleteTask (t :: ts) task_id = t :: deleteTask ts task_id := by
        simp [deleteTask, List.filter_cons, ht]
      rw [hstep]
      simpa using Nat.succ_le_succ (ih h.2)

theorem nodup_decomp_no_match {l₁ l₂ : List Task} {t : Task}
    (h : ((l₁ ++ t :: l₂).map Task.id).Nodup) : ∀ u ∈ l₁, u.id ≠ t.id := by
  intro u hu he
  rw [List.map_append, List.map_cons] at h
  rcases List.nodup_append.mp h with ⟨-, -, hd⟩
  exact hd (he ▸ List.mem_map_of_mem Task.id hu) (List.mem_cons_self _ _)

/-! ### Lemmas about persistence -/

theorem taskFromJson_taskToJson (t : Task) : taskFromJson (taskToJson t) = some t := by
  cases t with
  | mk i d p dd c ca => cases dd <;> rfl

theorem tasksFromJson_tasksToJson (ts : List Task) :
    tasksFromJson (tasksToJson ts) = some ts := by
  simp only [tasksToJson, tasksFromJson]
  induction ts with
  | nil => rfl
  | cons t ts ih => simp [tasksFromJsonList, taskFromJson_taskToJson, ih]

/-! ### Lemmas about id assignment -/

theorem addTask_map_id (ts : List Task) (d p : String) (dd : Option String) (c : String) :
    (addTask ts d p dd c).map Task.id = ts.map Task.id ++ [(ts.length : Int) + 1] := by
  simp [addTask]

theorem addTask_length (ts : List Task) (d p : String) (dd : Option String) (c : String) :
    (addTask ts d p dd c).length = ts.length + 1 := by
  simp [addTask]

theorem idsSeq_succ (n : Nat) : idsSeq (n + 1) = idsSeq n ++ [(n : Int) + 1] := by
  simp [idsSeq, List.range_succ]

theorem idsSeq_nodup (n : Nat) : (idsSeq n).Nodup := by
  have hinj : Function.Injective (fun k : Nat => (k : Int) + 1) := by
    intro a b h
    simp only at h
    omega
  rw [idsSeq]
  exact (List.nodup_range n).map hinj

theorem runOps_ids_aux (ops : List Op) :
    ∀ ts : List Task, (∀ op ∈ ops, op.isDelete = false) →
      ts.map Task.id = idsSeq ts.length →
      (List.foldl applyOp ts ops).map Task.id = idsSeq (List.foldl applyOp ts ops).length := by
  induction ops with
  | nil =>
    intro ts _ h
    simpa using h
  | cons op ops ih =>
    intro ts hnd h
    simp only [List.foldl_cons]
    apply ih _ (fun o ho => hnd o (by simp [ho]))
    cases op with
    | add a =>
      simp only [applyOp]
      rw [addTask_map_id, addTask_length, h, idsSeq_succ]
    | complete task_id =>
      simp only [applyOp]
      rw [completeTask_map_id, completeTask_length, h]
    | edit task_id d =>
      simp only [applyOp]
      rw [editTask_map_id, editTask_length, h]
    | delete task_id =>
      exact absurd (hnd (.delete task_id) (by simp)) (by simp [Op.isDelete])

/-! ### Lemmas about display order -/

theorem buildStore_desc_aux (adds : List AddArg) :
    ∀ ts : List Task,
      (adds.foldl (fun ts a => addTask ts a.description a.priority a.due_date a.created_at) ts).map
          Task.description
        = ts.map Task.description ++ adds.map AddArg.description := by
  induction adds with
  | nil => intro ts; simp
  | cons a adds ih =>
    intro ts
    simp only [List.foldl_cons, List.map_cons]
    rw [ih]
    simp [addTask]

/-! ### Lemmas about the interaction flows -/

theorem getUserInputR_valid (opts : List String) :
    ∀ (inputs : List String) (v : String) (rest : List String),
      getUserInputR (some opts) inputs = (some v, rest) →
      v ≠ "" ∧ opts.contains (lowerStr v) = true := by
  intro inputs
  induction inputs with
  | nil =>
    intro v rest h
    simp [getUserInputR] at h
  | cons i is ih =>
    intro v rest h
    simp only [getUserInputR] at h
    by_cases he : pyStrip i = ""
    · exact ih v rest (by rwa [if_pos he] at h)
    · rw [if_neg he] at h
      by_cases hc : opts.contains (lowerStr (pyStrip i)) = true
      · rw [if_pos hc] at h
        obtain ⟨h1, -⟩ := Prod.mk.injEq .. ▸ h
        cases h1
        exact ⟨he, hc⟩
      · rw [if_neg hc] at h
        exact ih v rest h

theorem parseDueDate_empty : parseDueDate "" = none := rfl

theorem completeFlow_crashed_iff (ts : List Task) (inputs : List String) :
    completeFlow ts inputs = FlowOutcome.crashed ↔
      ∃ s r, getUserInputR none inputs = (some s, r) ∧ pyInt s = none := by
  rcases hg : getUserInputR none inputs with ⟨o, rest⟩
  cases o with
  | none => simp [completeFlow, hg]
  | some s =>
    cases hp : pyInt s with
    | none => simp [completeFlow, hg, hp]
    | some n => simp [completeFlow, hg, hp]

theorem deleteFlow_crashed_iff (ts : List Task) (inputs : List String) :
    deleteFlow ts inputs = FlowOutcome.crashed ↔
      ∃ s r, getUserInputR none inputs = (some s, r) ∧ pyInt s = none := by
  rcases hg : getUserInputR none inputs with ⟨o, rest⟩
  cases o with
  | none => simp [deleteFlow, hg]
  | some s =>
    cases hp : pyInt s with
    | none => simp [deleteFlow, hg, hp]
    | some n => simp [deleteFlow, hg, hp]

theorem editFlow_crashed_iff (ts : List Task) (inputs : List String) :
    editFlow ts inputs = FlowOutcome.crashed ↔
      ∃ s r, getUserInputR none inputs = (some s, r) ∧ pyInt s = none := by
  rcases hg : getUserInputR none inputs with ⟨o, rest⟩
  cases o with
  | none => simp [editFlow, hg]
  | some s =>
    cases hp : pyInt s with
    | none => simp [editFlow, hg, hp]
    | some n =>
      rcases hg2 : getUserInputR none rest with ⟨o2, rest2⟩
      cases o2 with
      | none => simp [editFlow, hg, hp, hg2]
      | some d => simp [editFlow, hg, hp, hg2]

theorem addFlow_ne_crashed (ts : List Task) (inputs : List String) (createdAt : String) :
    addFlow ts inputs createdAt ≠ FlowOutcome.crashed := by
  simp only [addFlow]
  split
  · simp
  · split
    · simp
    · split
      · simp
      · simp

/-! ### The claims -/

/-- C1, counterexample: the id-uniqueness invariant fails on a reachable
state. From the empty store, three adds assign ids 1, 2, 3; deleting id 2
leaves two tasks, so the next add assigns id `2 + 1 = 3`, which collides
with the surviving task of id 3: the reachable store carries ids
`[1, 3, 3]`. -/
theorem c1_unique_ids_counterexample :
    ¬ ((runOps [Op.add ⟨"a", "medium", none, "t1"⟩, Op.add ⟨"b", "medium", none, "t2"⟩,
        Op.add ⟨"c", "medium", none, "t3"⟩, Op.delete 2,
        Op.add ⟨"d", "medium", none, "t4"⟩]).map Task.id).Nodup := by
  decide

/-- C1 (amended): in every store state reachable from the empty store by a
sequence of add, complete and edit operations — no delete — all tasks have
pairwise distinct ids (add assigns one-plus-the-current-task-count, and the
ids are exactly 1..n); a delete followed by enough adds can produce
duplicate ids. -/
theorem c1_unique_ids (ops : List Op) (h : ∀ op ∈ ops, op.isDelete = false) :
    ((runOps ops).map Task.id).Nodup := by
  have hids := runOps_ids_aux ops [] h (by simp [idsSeq])
  rw [runOps, hids]
  exact idsSeq_nodup _

/-- C1, witness: a concrete delete-free run has pairwise distinct ids. -/
theorem c1_unique_ids_witness :
    ((runOps [Op.add ⟨"a", "medium", none, "t1"⟩, Op.add ⟨"b", "low", none, "t2"⟩,
        Op.complete 1, Op.edit 2 "b2"]).map Task.id).Nodup :=
  c1_unique_ids _ (by decide)

/-- C2, counterexample: on the reachable store with ids `[1, 3, 3]`,
`delete_task(3)` removes two tasks (its list comprehension drops every
match), so the collection size decreases by two — the claim's "removes
exactly one task" and "size decreases by at most one" both fail. -/
theorem c2_delete_counterexample :
    deleteTask [sampleTask 1, sampleTask 3, sampleTask 3] 3 = [sampleTask 1] ∧
    ¬ (([sampleTask 1, sampleTask 3, sampleTask 3] : List Task).length ≤
        (deleteTask [sampleTask 1, sampleTask 3, sampleTask 3] 3).length + 1) := by
  decide

/-- C2 (amended): `delete_task(task_id)` removes every task whose id
matches and keeps all non-matching tasks in their original order; it is a
no-op when the id is absent; and when ids are pairwise distinct (so at most
one task matches) the collection size decreases by at most one, and a
present id is removed leaving exactly the other tasks. -/
theorem c2_delete_behavior (ts : List Task) (task_id : Int) :
    (∀ t ∈ deleteTask ts task_id, t.id ≠ task_id) ∧
    (∀ t ∈ ts, t.id ≠ task_id → t ∈ deleteTask ts task_id) ∧
    List.Sublist (deleteTask ts task_id) ts ∧
    ((∀ t ∈ ts, t.id ≠ task_id) → deleteTask ts task_id = ts) ∧
    ((ts.map Task.id).Nodup → ts.length ≤ (deleteTask ts task_id).length + 1) ∧
    ((ts.map Task.id).Nodup → ∀ l₁ t l₂, ts = l₁ ++ t :: l₂ → t.id = task_id →
      deleteTask ts task_id = l₁ ++ l₂) := by
  refine ⟨?_, ?_, ?_, ?_, ?_, ?_⟩
  · intro t ht
    exact (mem_deleteTask.mp ht).2
  · intro t ht hne
    exact mem_deleteTask.mpr ⟨ht, hne⟩
  · exact List.filter_sublist ts
  · exact deleteTask_of_not_found ts task_id
  · exact deleteTask_length_of_nodup ts task_id
  · intro h l₁ t l₂ hts ht
    subst hts
    have h₁ : ∀ u ∈ l₁, u.id ≠ task_id := by
      intro u hu
      rw [← ht]
      exact nodup_decomp_no_match h u hu
    have h₂ : ∀ u ∈ l₂, u.id ≠ task_id := by
      intro u hu he
      rw [List.map_append, List.map_cons] at h
      rcases List.nodup_append.mp h with ⟨-, h2, -⟩
      exact (List.nodup_cons.mp h2).1 (by rw [ht, ← he]; exact List.mem_map_of_mem Task.id hu)
    have e1 : l₁.filter (fun u => u.id != task_id) = l₁ := by
      rw [List.filter_eq_self]
      intro u hu
      simpa using h₁ u hu
    have e2 : l₂.filter (fun u => u.id != task_id) = l₂ := by
      rw [List.filter_eq_self]
      intro u hu
      simpa using h₂ u hu
    simp only [deleteTask, List.filter_append, List.filter_cons, e1, e2]
    rw [if_neg (by simpa using ht)]

/-- C2, witness: on a store with distinct ids 1 and 2, deleting id 2 keeps
task 1, deleting the absent id 5 is a no-op, and the size decreases by at
most one. -/
theorem c2_delete_behavior_witness :
    sampleTask 1 ∈ deleteTask [sampleTask 1, sampleTask 2] 2 ∧
    deleteTask [sampleTask 1, sampleTask 2] 5 = [sampleTask 1, sampleTask 2] ∧
    ([sampleTask 1, sampleTask 2] : List Task).length ≤
      (deleteTask [sampleTask 1, sampleTask 2] 2).length + 1 ∧
    deleteTask [sampleTask 1, sampleTask 2] 2 = [sampleTask 1] ++ [] :=
  ⟨(c2_delete_behavior [sampleTask 1, sampleTask 2] 2).2.1 _ (by decide) (by decide),
   (c2_delete_behavior [sampleTask 1, sampleTask 2] 5).2.2.2.1 (by decide),
   (c2_delete_behavior [sampleTask 1, sampleTask 2] 2).2.2.2.2.1 (by decide),
   (c2_delete_behavior [sampleTask 1, sampleTask 2] 2).2.2.2.2.2 (by decide)
     [sampleTask 1] (sampleTask 2) [] rfl rfl⟩

/-- C3: saving the in-memory collection to a file and loading from that
same file yields the very same list of tasks — element by element, in
order, with all six fields equal (the conclusion is equality of `List Task`
values). -/
theorem c3_save_load_roundtrip (fs : String → FileContent) (filename : String)
    (ts : List Task) : loadTasks (saveTasks fs filename ts) filename = ts := by
  simp [loadTasks, saveTasks, tasksFromJson_tasksToJson]

/-- C4, counterexample: the code compares the parsed due date (midnight)
against `datetime.now()` — a full datetime, not the current calendar date.
At render datetime 2020-01-05 00:00:01, the not-completed task due
"2020-01-05" is reported overdue even though its due date equals the
current date (and so is not strictly before it), contradicting the claim. -/
theorem c4_overdue_counterexample :
    overdueFlag dueTask ⟨2020, 1, 5, 1⟩ = some true ∧
    dateLtB (2020, 1, 5) (2020, 1, 5) = false := by
  decide

/-- C4 (amended): at render time a task with a parsable due date is
reported overdue iff it is not completed and midnight of the due date is
strictly before the current datetime — equivalently, iff the due date is
strictly before the current date, or equals the current date and the
current time-of-day is after midnight. A completed task is never reported
overdue. -/
theorem c4_overdue_characterization (t : Task) (now : PyDateTime) (s : String)
    (y m d : Nat) (hs : t.due_date = some s) (hp : parseDueDate s = some (y, m, d)) :
    (overdueFlag t now = some true ↔
      t.completed = false ∧ pyDateTimeLtB ⟨y, m, d, 0⟩ now = true) ∧
    (pyDateTimeLtB ⟨y, m, d, 0⟩ now = true ↔
      (dateLtB (y, m, d) (now.year, now.month, now.day) = true ∨
        ((y, m, d) = (now.year, now.month, now.day) ∧ 0 < now.sec))) ∧
    (t.completed = true → overdueFlag t now = some false) := by
  have hne : s ≠ "" := by
    intro he
    rw [he, parseDueDate_empty] at hp
    cases hp
  refine ⟨?_, ?_, ?_⟩
  · cases hc : t.completed
    · simp [overdueFlag, hs, truthy, hne, hc, hp]
    · simp [overdueFlag, hs, truthy, hne, hc, hp]
  · cases now with
    | mk ny nm nd nsec =>
      simp only [pyDateTimeLtB, dateLtB, Prod.ext_iff]
      split_ifs <;> simp_all
  · intro hc
    simp [overdueFlag, hc]

/-- C4, witness: the spec's own example — due date "2000-01-01",
not completed — is reported overdue at a later render datetime. -/
theorem c4_overdue_witness :
    overdueFlag oldDueTask ⟨2026, 10, 12, 0⟩ = some true := by
  have h := c4_overdue_characterization oldDueTask ⟨2026, 10, 12, 0⟩
    "2000-01-01" 2000 1 1 rfl (by decide)
  exact h.1.mpr (by decide)

/-- C5, counterexample: at the Complete sub-flow's task-id prompt the
string "abc" is accepted by `get_user_input` (it is non-empty and no option
list is given), and the unguarded `int("abc")` then raises an unhandled
`ValueError` — an input reachable at a prompt of the interaction loop
aborts the process, contradicting the claim. -/
theorem c5_no_crash_counterexample :
    completeFlow [] ["abc"] = FlowOutcome.crashed := by
  decide

/-- C5 (amended): every prompt served by `get_user_input` re-prompts on
empty or out-of-enumeration input and only ever returns a non-empty,
in-enumeration value; the Add sub-flow never raises (an invalid date format
degrades to no deadline via its try/except); but the numeric task-id
prompts of the Complete, Edit and Delete sub-flows crash with an unhandled
`ValueError` exactly when the first validated input is not a decimal
integer literal. -/
theorem c5_input_handling (ts : List Task) (inputs : List String) (createdAt : String)
    (opts : List String) (v : String) (rest : List String) :
    (getUserInputR (some opts) inputs = (some v, rest) →
      v ≠ "" ∧ opts.contains (lowerStr v) = true) ∧
    addFlow ts inputs createdAt ≠ FlowOutcome.crashed ∧
    (completeFlow ts inputs = FlowOutcome.crashed ↔
      ∃ s r, getUserInputR none inputs = (some s, r) ∧ pyInt s = none) ∧
    (deleteFlow ts inputs = FlowOutcome.crashed ↔
      ∃ s r, getUserInputR none inputs = (some s, r) ∧ pyInt s = none) ∧
    (editFlow ts inputs = FlowOutcome.crashed ↔
      ∃ s r, getUserInputR none inputs = (some s, r) ∧ pyInt s = none) :=
  ⟨getUserInputR_valid opts inputs v rest,
   addFlow_ne_crashed ts inputs createdAt,
   completeFlow_crashed_iff ts inputs,
   deleteFlow_crashed_iff ts inputs,
   editFlow_crashed_iff ts inputs⟩

/-- C5, witness: the validated input " Y " yields the non-empty
in-enumeration value "Y"; a full Add interaction with an invalid date does
not crash; and a non-numeric input at the Delete sub-flow's id prompt does. -/
theorem c5_input_handling_witness :
    ("Y" ≠ "" ∧ ["y", "n"].contains (lowerStr "Y") = true) ∧
    addFlow [] ["Buy milk", "High", "not-a-date"] "2026-10-12 00:00:00" ≠
      FlowOutcome.crashed ∧
    deleteFlow [] ["  ", "xyz"] = FlowOutcome.crashed :=
  ⟨(c5_input_handling [] ["", "bad", " Y "] "t" ["y", "n"] "Y" []).1 (by decide),
   (c5_input_handling [] ["Buy milk", "High", "not-a-date"] "2026-10-12 00:00:00"
      [] "" []).2.1,
   ((c5_input_handling [] ["  ", "xyz"] "t" [] "" []).2.2.2.1).mpr
     ⟨"xyz", [], by decide⟩⟩

/-- C6: loading from a missing file or from a file with malformed (JSON-
undecodable) content resets the store to the empty collection — the caught
exceptions surface no error — and loading a well-formed persisted task
list replaces the entire in-memory collection with it. -/
theorem c6_load_behavior (fs : String → FileContent) (filename : String) :
    (fs filename = FileContent.missing → loadTasks fs filename = []) ∧
    (fs filename = FileContent.malformed → loadTasks fs filename = []) ∧
    (∀ ts : List Task, fs filename = FileContent.content (tasksToJson ts) →
      loadTasks fs filename = ts) := by
  refine ⟨?_, ?_, ?_⟩
  · intro h
    simp [loadTasks, h]
  · intro h
    simp [loadTasks, h]
  · intro ts h
    simp [loadTasks, h, tasksFromJson_tasksToJson]

/-- C6, witness: loading a missing file, a malformed file, and a file
holding one persisted task. -/
theorem c6_load_behavior_witness :
    loadTasks (fun _ => FileContent.missing) "todo.json" = [] ∧
    loadTasks (fun _ => FileContent.malformed) "todo.json" = [] ∧
    loadTasks (fun _ => FileContent.content (tasksToJson [sampleTask 1])) "todo.json"
      = [sampleTask 1] :=
  ⟨(c6_load_behavior (fun _ => FileContent.missing) "todo.json").1 rfl,
   (c6_load_behavior (fun _ => FileContent.malformed) "todo.json").2.1 rfl,
   (c6_load_behavior (fun _ => FileContent.content (tasksToJson [sampleTask 1]))
      "todo.json").2.2 [sampleTask 1] rfl⟩

/-- C7: `complete_task(task_id)` leaves the store unchanged and signals
not-found (the Bool is `false`, i.e. "Task not found!" is printed) when no
task matches; when the store has pairwise-distinct ids and a task matches
(written as the decomposition whose prefix has no match, which under
distinct ids is the unique matching position), that task's completed flag
is set to true and the signal is `true`; completing an already-completed
task is a no-op; and the operation is idempotent on every store state. -/
theorem c7_complete_behavior (ts : List Task) (task_id : Int) :
    ((∀ t ∈ ts, t.id ≠ task_id) → completeTaskR ts task_id = (ts, false)) ∧
    (∀ l₁ t l₂, ts = l₁ ++ t :: l₂ → (∀ u ∈ l₁, u.id ≠ task_id) → t.id = task_id →
      completeTaskR ts task_id = (l₁ ++ { t with completed := true } :: l₂, true)) ∧
    (∀ l₁ t l₂, ts = l₁ ++ t :: l₂ → (∀ u ∈ l₁, u.id ≠ task_id) → t.id = task_id →
      t.completed = true → completeTask ts task_id = ts) ∧
    completeTask (completeTask ts task_id) task_id = completeTask ts task_id := by
  refine ⟨completeTaskR_of_not_found ts task_id, ?_, ?_, completeTask_twice ts task_id⟩
  · intro l₁ t l₂ hts h₁ ht
    subst hts
    exact completeTaskR_of_found l₁ t l₂ task_id h₁ ht
  · intro l₁ t l₂ hts h₁ ht hc
    subst hts
    rw [completeTask, completeTaskR_of_found l₁ t l₂ task_id h₁ ht,
      mkCompleted_eq_self hc]

/-- C7, witness: completing the absent id 9 signals not-found and changes
nothing; completing id 2 marks exactly that task; completing an
already-completed task is a no-op; completing twice equals completing
once. -/
theorem c7_complete_behavior_witness :
    completeTaskR [sampleTask 1, sampleTask 2] 9 = ([sampleTask 1, sampleTask 2], false) ∧
    completeTaskR [sampleTask 1, sampleTask 2] 2
      = ([sampleTask 1, { sampleTask 2 with completed := true }], true) ∧
    completeTask [sampleDone 1] 1 = [sampleDone 1] ∧
    completeTask (completeTask [sampleTask 1] 1) 1 = completeTask [sampleTask 1] 1 :=
  ⟨(c7_complete_behavior [sampleTask 1, sampleTask 2] 9).1 (by decide),
   (c7_complete_behavior [sampleTask 1, sampleTask 2] 2).2.1
     [sampleTask 1] (sampleTask 2) [] rfl (by decide) rfl,
   (c7_complete_behavior [sampleDone 1] 1).2.2.1 [] (sampleDone 1) [] rfl
     (by decide) rfl rfl,
   (c7_complete_behavior [sampleTask 1] 1).2.2.2⟩

/-- C8: for every sequence of add calls the rows displayed with
`show_completed = true` are exactly the stored tasks — in the exact order
the adds happened, as the description sequence shows — and for every store
state the rows displayed with `show_completed = false` are exactly the
not-completed tasks in stored (insertion) order. -/
theorem c8_list_order (adds : List AddArg) (ts : List Task) :
    displayedTasks (buildStore adds) true = buildStore adds ∧
    (buildStore adds).map Task.description = adds.map AddArg.description ∧
    displayedTasks ts true = ts ∧
    displayedTasks ts false = ts.filter (fun t => !t.completed) := by
  refine ⟨?_, ?_, ?_, ?_⟩
  · simp [displayedTasks]
  · have h := buildStore_desc_aux adds []
    simpa [buildStore] using h
  · simp [displayedTasks]
  · simp [displayedTasks]

/-- C9: when the store has pairwise-distinct ids, `edit_task` on a present
id replaces exactly that task's description — its id, priority, due date,
completed flag and creation timestamp are untouched, and every other task
is unchanged and keeps its position (the conclusion rebuilds the store as
the same prefix, the same task with only `description` updated, and the
same suffix); on an absent id it signals not-found (`false`, i.e. "Task
not found!") and leaves the store unchanged. -/
theorem c9_edit_behavior (ts : List Task) (task_id : Int) (new_description : String) :
    ((∀ t ∈ ts, t.id ≠ task_id) →
      editTaskR ts task_id new_description = (ts, false)) ∧
    ((ts.map Task.id).Nodup → ∀ l₁ t l₂, ts = l₁ ++ t :: l₂ → t.id = task_id →
      editTaskR ts task_id new_description
        = (l₁ ++ { t with description := new_description } :: l₂, true)) := by
  refine ⟨editTaskR_of_not_found ts task_id new_description, ?_⟩
  intro h l₁ t l₂ hts ht
  subst hts
  have h₁ : ∀ u ∈ l₁, u.id ≠ task_id := by
    intro u hu
    rw [← ht]
    exact nodup_decomp_no_match h u hu
  exact editTaskR_of_found l₁ t l₂ task_id new_description h₁ ht

/-- C9, witness: editing the absent id 9 signals not-found and changes
nothing; editing id 2 on a distinct-id store rewrites only that task's
description. -/
theorem c9_edit_behavior_witness :
    editTaskR [sampleTask 1, sampleTask 2] 9 "new" = ([sampleTask 1, sampleTask 2], false) ∧
    editTaskR [sampleTask 1, sampleTask 2] 2 "new"
      = ([sampleTask 1, { sampleTask 2 with description := "new" }], true) :=
  ⟨(c9_edit_behavior [sampleTask 1, sampleTask 2] 9 "new").1 (by decide),
   (c9_edit_behavior [sampleTask 1, sampleTask 2] 2 "new").2 (by decide)
     [sampleTask 1] (sampleTask 2) [] rfl rfl⟩

/-- C10: on a store where several tasks may carry the same id, decomposed
as a prefix without the id, a first matching task `t`, and an arbitrary
suffix: `complete_task` and `edit_task` modify only `t` (their scan returns
at the first match, so the suffix — later duplicates included — survives
verbatim), while `delete_task` also filters every later carrier of the id
out of the suffix, leaving no task with that id. -/
theorem c10_duplicate_ids (ts : List Task) (task_id : Int) (l₁ : List Task)
    (t : Task) (l₂ : List Task) (new_description : String)
    (hts : ts = l₁ ++ t :: l₂) (h₁ : ∀ u ∈ l₁, u.id ≠ task_id) (ht : t.id = task_id) :
    completeTask ts task_id = l₁ ++ { t with completed := true } :: l₂ ∧
    editTask ts task_id new_description
      = l₁ ++ { t with description := new_description } :: l₂ ∧
    deleteTask ts task_id = l₁ ++ deleteTask l₂ task_id ∧
    (∀ u ∈ deleteTask ts task_id, u.id ≠ task_id) := by
  subst hts
  refine ⟨?_, ?_, ?_, ?_⟩
  · rw [completeTask, completeTaskR_of_found l₁ t l₂ task_id h₁ ht]
  · rw [editTask, editTaskR_of_found l₁ t l₂ task_id new_description h₁ ht]
  · have e1 : l₁.filter (fun u => u.id != task_id) = l₁ := by
      rw [List.filter_eq_self]
      intro u hu
      simpa using h₁ u hu
    simp only [deleteTask, List.filter_append, List.filter_cons, e1]
    rw [if_neg (by simpa using ht)]
  · intro u hu
    exact (mem_deleteTask.mp hu).2

/-- C10, witness: on the duplicate-id store `[1, 3, 3]`, completing and
editing id 3 touch only the first id-3 task and keep the later duplicate,
while deleting id 3 removes both carriers. -/
theorem c10_duplicate_ids_witness :
    completeTask [sampleTask 1, sampleTask 3, sampleTask 3] 3
      = [sampleTask 1] ++ { sampleTask 3 with completed := true } :: [sampleTask 3] ∧
    editTask [sampleTask 1, sampleTask 3, sampleTask 3] 3 "new"
      = [sampleTask 1] ++ { sampleTask 3 with description := "new" } :: [sampleTask 3] ∧
    deleteTask [sampleTask 1, sampleTask 3, sampleTask 3] 3
      = [sampleTask 1] ++ deleteTask [sampleTask 3] 3 ∧
    (sampleTask 1).id ≠ 3 := by
  have h := c10_duplicate_ids [sampleTask 1, sampleTask 3, sampleTask 3] 3
    [sampleTask 1] (sampleTask 3) [sampleTask 3] "new" rfl (by decide) rfl
  exact ⟨h.1, h.2.1, h.2.2.1, h.2.2.2 (sampleTask 1) (by decide)⟩

end TodoApp
